import Mathlib

/- Verification development for CentralPixelBenchmark.go (Galaxy Zoo central
pixel benchmark).

Modelling conventions, used consistently below:
* Go `int` is modelled as `ℤ`; Go integer division truncates toward zero,
  which is `Int.tdiv`.
* Go `float64` is modelled as the exact rationals `ℚ` (the spec states the
  averaging properties "within floating tolerance"; the embedding states
  the ideal-arithmetic content exactly).
* A Go `map` is modelled as an association list (`GoMap`) together with
  Go's semantics: lookup of an absent key yields the zero value (`lookupD`
  with an explicit default), assignment overwrites or appends (`goInsert`).
* Go slices stored in a map are mutated in place in the source
  (`AverageGalaxySolutions` writes through `avSolutions`, an alias of
  `trainingSolutions[galaxyList[0]]`); the embedding threads the table
  state explicitly, so such writes become `goInsert` updates of the table.
* Runtime panics (integer division by zero, index out of range) and the
  source's `os.Exit` error branches are modelled as `Option`/`Except`
  failures.
* `strconv.ParseFloat` and `strconv.FormatFloat` are Go library functions
  outside this repository; they are taken as parameters (`parse`,
  `fmtFloat`). `unitParse` below is a concrete instantiation used for
  evaluating the model on concrete inputs.
-/

/-- Association-list model of a Go map. -/
abbrev GoMap (κ α : Type) : Type := List (κ × α)

/-- Go map read `m[k]`: value of the first entry with key `k`, or the zero
value `d` when the key is absent. -/
def lookupD {κ α : Type} [DecidableEq κ] (m : GoMap κ α) (k : κ) (d : α) : α :=
  match m with
  | [] => d
  | p :: rest => if p.1 = k then p.2 else lookupD rest k d

/-- Go map write `m[k] = v`: overwrite the entry with key `k`, or append a
new entry when the key is absent. -/
def goInsert {κ α : Type} [DecidableEq κ] (m : GoMap κ α) (k : κ) (v : α) : GoMap κ α :=
  match m with
  | [] => [(k, v)]
  | p :: rest => if p.1 = k then (k, v) :: rest else p :: goInsert rest k v

/-- Go comma-ok test `_, ok := m[k]`. -/
def hasKey {κ α : Type} [DecidableEq κ] (m : GoMap κ α) (k : κ) : Bool :=
  match m with
  | [] => false
  | p :: rest => if p.1 = k then true else hasKey rest k

/-- A central-patch colour sample: the averaged red, green and blue channel
values (Go `int`). -/
abbrev RGB : Type := Int × Int × Int

/-- `avIntensity := int((RGB[0] + RGB[1] + RGB[2]) / 3)` from both
`GetGalaxyClusters` and `CreateCentralPixelBenchmark` (Go division
truncates toward zero). -/
def avIntensity (c : RGB) : Int := Int.tdiv (c.1 + c.2.1 + c.2.2) 3

/-- The cluster key as computed on the training path in `GetGalaxyClusters`:
the channels are divided by the average intensity in place and combined as
`RGB[0]*hashFactor*hashFactor + RGB[1]*hashFactor + RGB[2]`. -/
def trainClusterKey (c : RGB) (hashFactor : Int) : Int :=
  Int.tdiv c.1 (avIntensity c) * hashFactor * hashFactor
    + Int.tdiv c.2.1 (avIntensity c) * hashFactor
    + Int.tdiv c.2.2 (avIntensity c)

/-- The cluster key as computed on the test path in
`CreateCentralPixelBenchmark`:
`hashFactor*hashFactor*(RGB[0]/avIntensity) + hashFactor*(RGB[1]/avIntensity)
 + RGB[2]/avIntensity`. -/
def testClusterKey (c : RGB) (hashFactor : Int) : Int :=
  hashFactor * hashFactor * Int.tdiv c.1 (avIntensity c)
    + hashFactor * Int.tdiv c.2.1 (avIntensity c)
    + Int.tdiv c.2.2 (avIntensity c)

/-- Training-path key computation with Go's runtime behaviour made
explicit: integer division by a zero average intensity panics, which is
modelled as `none`. The source has no guard. -/
def trainClusterKeyChecked (c : RGB) (hashFactor : Int) : Option Int :=
  if avIntensity c = 0 then none else some (trainClusterKey c hashFactor)

/-- Test-path key computation with the unguarded division by zero made
explicit, as in `trainClusterKeyChecked`. -/
def testClusterKeyChecked (c : RGB) (hashFactor : Int) : Option Int :=
  if avIntensity c = 0 then none else some (testClusterKey c hashFactor)

/-- Loop body of `AssignClassValues`: `for i := 0; i < len(splitrow)-1; i++`
parses field `i` and assigns `floatrow[i]`. `fuel` is the number of
remaining iterations, `i` the current index. A parse failure is the
source's fatal `os.Exit` branch; an assignment at an index outside
`floatrow` is Go's index-out-of-range panic. Both are modelled as `none`. -/
def assignLoop (parse : String → Option ℚ) (splitrow : List String) :
    Nat → Nat → List ℚ → Option (List ℚ)
  | 0, _, floatrow => some floatrow
  | fuel + 1, i, floatrow =>
    match parse (splitrow.getD i "") with
    | some val =>
      if i < floatrow.length then assignLoop parse splitrow fuel (i + 1) (floatrow.set i val)
      else none
    | none => none

/-- `AssignClassValues`: allocates `floatrow := make([]float64, 37)` and
fills positions `0 ≤ i < len(splitrow)-1` with the parsed fields. Note the
loop bound is `len(splitrow)-1`, not `len(splitrow)`. -/
def AssignClassValues (parse : String → Option ℚ) (splitrow : List String) :
    Option (List ℚ) :=
  assignLoop parse splitrow (splitrow.length - 1) 0 (List.replicate 37 0)

/-- Row loop of `GetTrainingSolutions`: for each data row (already split on
commas) store `trainingSolutions[splitrow[0]] = AssignClassValues(splitrow[1:])`. -/
def trainingRowsLoop (parse : String → Option ℚ) :
    List (List String) → GoMap String (List ℚ) → Option (GoMap String (List ℚ))
  | [], trainingSolutions => some trainingSolutions
  | row :: rest, trainingSolutions =>
    match AssignClassValues parse row.tail with
    | some values => trainingRowsLoop parse rest (goInsert trainingSolutions (row.headD "") values)
    | none => none

/-- `GetTrainingSolutions`, restricted to its computational content: the
data rows (everything after the header line) are turned into the
identifier-to-label-vector table. File I/O is outside the model. -/
def GetTrainingSolutions (parse : String → Option ℚ) (rows : List (List String)) :
    Option (GoMap String (List ℚ)) :=
  trainingRowsLoop parse rows []

/-- Failure modes of `AverageGalaxySolutions`: `emptyList` is the panic at
`galaxyList[0]` on an empty member list, `badLength` is the source's fatal
"NProbabilities is not 37" branch, `memberShort` is the index-out-of-range
panic when a later member's stored vector is shorter than 37. -/
inductive AggError : Type
  | emptyList : AggError
  | badLength : Nat → AggError
  | memberShort : AggError
deriving DecidableEq

/-- One iteration of the accumulation loop in `AverageGalaxySolutions`:
`for j := 0; j < 37; j++ { avSolutions[j] += trainingSolutions[gi][j] }`.
`avSolutions` aliases the slice stored at `g0`, so the writes land in the
table entry for `g0`. Reading `trainingSolutions[gi][j]` panics when that
vector is shorter than 37. -/
def accumOne (g0 : String) (ts : GoMap String (List ℚ)) (gi : String) :
    Option (GoMap String (List ℚ)) :=
  if (lookupD ts gi []).length < 37 then none
  else some (goInsert ts g0 (List.zipWith (· + ·) (lookupD ts g0 []) (lookupD ts gi [])))

/-- The accumulation loop over `galaxyList[1:]`. -/
def accumLoop (g0 : String) :
    List String → GoMap String (List ℚ) → Option (GoMap String (List ℚ))
  | [], ts => some ts
  | gi :: rs, ts =>
    match accumOne g0 ts gi with
    | some ts1 => accumLoop g0 rs ts1
    | none => none

/-- The final loop of `AverageGalaxySolutions`:
`for j := 0; j < 37; j++ { avSolutions[j] /= float64(len(galaxyList)) }`,
again writing through the alias into the table entry for `g0`. -/
def divideStep (g0 : String) (n : Nat) (ts : GoMap String (List ℚ)) :
    GoMap String (List ℚ) :=
  goInsert ts g0 ((lookupD ts g0 []).map (fun x => x / (n : ℚ)))

/-- `AverageGalaxySolutions`, with the table state threaded explicitly:
the result is the returned vector together with the table as it stands
after the call (the source mutates the stored slice of the first member
in the multi-member branch). -/
def AverageGalaxySolutions (galaxyList : List String)
    (trainingSolutions : GoMap String (List ℚ)) :
    Except AggError (List ℚ × GoMap String (List ℚ)) :=
  match galaxyList with
  | [] => .error .emptyList
  | g0 :: rest =>
    if (lookupD trainingSolutions g0 []).length = 37 then
      if rest = [] then .ok (lookupD trainingSolutions g0 [], trainingSolutions)
      else
        match accumLoop g0 rest trainingSolutions with
        | some ts1 =>
          let ts2 := divideStep g0 (rest.length + 1) ts1
          .ok (lookupD ts2 g0 [], ts2)
        | none => .error .memberShort
    else .error (.badLength (lookupD trainingSolutions g0 []).length)

/-- `GetSolutionsForGalaxyClusters`: average every cluster, accumulating
the per-cluster solutions and threading the (mutated) training table. -/
def GetSolutionsForGalaxyClusters :
    List (Int × List String) → GoMap String (List ℚ) → GoMap Int (List ℚ) →
    Except AggError (GoMap Int (List ℚ) × GoMap String (List ℚ))
  | [], trainingSolutions, acc => .ok (acc, trainingSolutions)
  | c :: cs, trainingSolutions, acc =>
    match AverageGalaxySolutions c.2 trainingSolutions with
    | .ok (v, ts1) => GetSolutionsForGalaxyClusters cs ts1 (goInsert acc c.1 v)
    | .error e => .error e

/-- Cluster update in `GetGalaxyClusters`: append the identifier to the
member list of `key` when present, otherwise create the one-element list
(`galaxyClusters[key] = append(...)` / `= []string{galaxyId}`). -/
def addToCluster :
    GoMap Int (List String) → Int → String → GoMap Int (List String)
  | [], key, galaxyId => [(key, [galaxyId])]
  | p :: rest, key, galaxyId =>
    if p.1 = key then (p.1, p.2 ++ [galaxyId]) :: rest
    else p :: addToCluster rest key galaxyId

/-- The clustering loop of `GetGalaxyClusters` over the training samples. -/
def clustersLoop (hashFactor : Int) :
    List (String × RGB) → GoMap Int (List String) → Option (GoMap Int (List String))
  | [], clusters => some clusters
  | e :: es, clusters =>
    match trainClusterKeyChecked e.2 hashFactor with
    | some key => clustersLoop hashFactor es (addToCluster clusters key e.1)
    | none => none

/-- `GetGalaxyClusters`: cluster the training identifiers by hashed colour
key; producing zero clusters is the source's fatal branch. -/
def GetGalaxyClusters (trainingGalaxyRGB : List (String × RGB)) (hashFactor : Int) :
    Option (GoMap Int (List String)) :=
  match clustersLoop hashFactor trainingGalaxyRGB [] with
  | some clusters => if clusters.length < 1 then none else some clusters
  | none => none

/-- The all-zero fallback literal of `CreateCentralPixelBenchmark`
(37 zeros in the source). -/
def zeroPrediction : List ℚ := List.replicate 37 0

/-- Per-identifier body of the prediction loop in
`CreateCentralPixelBenchmark`: compute the test-path key, look it up in the
aggregated cluster solutions, and fall back to the zero vector on a miss. -/
def testPredictionFor (galaxyClusterSolutions : GoMap Int (List ℚ))
    (c : RGB) (hashFactor : Int) : Option (List ℚ) :=
  match testClusterKeyChecked c hashFactor with
  | some key =>
    if hasKey galaxyClusterSolutions key then some (lookupD galaxyClusterSolutions key [])
    else some zeroPrediction
  | none => none

/-- The prediction loop of `CreateCentralPixelBenchmark` building
`testPredictions`. -/
def predictionsLoop (galaxyClusterSolutions : GoMap Int (List ℚ)) (hashFactor : Int) :
    List (String × RGB) → GoMap String (List ℚ) → Option (GoMap String (List ℚ))
  | [], testPredictions => some testPredictions
  | e :: es, testPredictions =>
    match testPredictionFor galaxyClusterSolutions e.2 hashFactor with
    | some v => predictionsLoop galaxyClusterSolutions hashFactor es (goInsert testPredictions e.1 v)
    | none => none

/-- `BuildPredictionRow`: the identifier followed by the formatted
prediction values, with the source's fatal 38-element check. -/
def BuildPredictionRow (fmtFloat : ℚ → String) (galaxyId : String) (pred : List ℚ) :
    Option (List String) :=
  let line := galaxyId :: pred.map fmtFloat
  if line.length ≠ 38 then none else some line

/-- The output loop of `CreateCentralPixelBenchmark`: one row per test
identifier, with the source's fatal 37-prediction check before each row. -/
def writeLoop (fmtFloat : ℚ → String) (testPredictions : GoMap String (List ℚ)) :
    List (String × RGB) → List (List String) → Option (List (List String))
  | [], out => some out
  | e :: es, out =>
    if (lookupD testPredictions e.1 []).length ≠ 37 then none
    else
      match BuildPredictionRow fmtFloat e.1 (lookupD testPredictions e.1 []) with
      | some line => writeLoop fmtFloat testPredictions es (out ++ [line])
      | none => none

/-- `CreateCentralPixelBenchmark`, restricted to its computational content:
build the prediction table, check it covers every test identifier, and
produce the list of output rows (the CSV writing itself is I/O). -/
def CreateCentralPixelBenchmark (fmtFloat : ℚ → String)
    (galaxyClusterSolutions : GoMap Int (List ℚ)) (testGalaxyRGB : List (String × RGB))
    (hashFactor : Int) : Option (List (List String)) :=
  match predictionsLoop galaxyClusterSolutions hashFactor testGalaxyRGB [] with
  | some testPredictions =>
    if testPredictions.length = testGalaxyRGB.length then
      writeLoop fmtFloat testPredictions testGalaxyRGB []
    else none
  | none => none

/-- Observer: the training table as it stands after a call of
`AverageGalaxySolutions` (the table itself when the call dies). -/
def aggTableAfter (galaxyList : List String) (ts : GoMap String (List ℚ)) :
    GoMap String (List ℚ) :=
  match AverageGalaxySolutions galaxyList ts with
  | .ok r => r.2
  | .error _ => ts

/-- Observer: the vector returned by `AverageGalaxySolutions` (empty when
the call dies). -/
def aggVector (galaxyList : List String) (ts : GoMap String (List ℚ)) : List ℚ :=
  match AverageGalaxySolutions galaxyList ts with
  | .ok r => r.1
  | .error _ => []

/-- Discriminator for the source's fatal "NProbabilities is not 37" branch. -/
def isBadLength : Except AggError (List ℚ × GoMap String (List ℚ)) → Bool
  | .error (.badLength _) => true
  | _ => false

/-- A concrete stand-in for `strconv.ParseFloat`, used to run the model on
concrete inputs: it accepts exactly the strings "0" and "1". -/
def unitParse (s : String) : Option ℚ :=
  if s = "1" then some 1 else if s = "0" then some 0 else none

/-- Concrete training table for exercising the aggregation aliasing:
identifier "A" stores (1, 0, ..., 0), identifier "B" stores
(0, 1, 0, ..., 0), both of length 37 (written out so that the simp
evaluation below proceeds element by element). -/
def tsMut : GoMap String (List ℚ) :=
  [("A", [1, 0, 0, 0, 0, 0, 0, 0, 0, 0, 0, 0, 0, 0, 0, 0, 0, 0, 0,
          0, 0, 0, 0, 0, 0, 0, 0, 0, 0, 0, 0, 0, 0, 0, 0, 0, 0]),
   ("B", [0, 1, 0, 0, 0, 0, 0, 0, 0, 0, 0, 0, 0, 0, 0, 0, 0, 0, 0,
          0, 0, 0, 0, 0, 0, 0, 0, 0, 0, 0, 0, 0, 0, 0, 0, 0, 0])]

/-- A concrete training-solutions row: the identifier "id" followed by
exactly 37 numeric fields, every one of them "1". -/
def row38 : List String := "id" :: List.replicate 37 "1"

/-- The table `GetTrainingSolutions` builds from the single row `row38`:
the loop bound `len(splitrow)-1` fills only the first 36 positions, so the
stored vector ends in the initial zero. -/
def tsTrain : GoMap String (List ℚ) := [("id", List.replicate 36 1 ++ [0])]

/-- A concrete stand-in for `strconv.FormatFloat`, used to run the output
model on concrete inputs. -/
def constFmt : ℚ → String := fun _ => "0"

/-- Concrete test-image sample map with a single identifier. -/
def testRGBW : GoMap String RGB := [("t", ((1 : Int), (1 : Int), (1 : Int)))]

/-- Concrete training-image sample map: both samples truncate to the
colour ratio (1, 1, 1) and therefore hash to the key 111 under hash
factor 10. -/
def trainRGBW : GoMap String RGB :=
  [("A", ((120 : Int), (120 : Int), (120 : Int))),
   ("B", ((121 : Int), (121 : Int), (120 : Int)))]

/-- Claim C1: for every colour sample with positive average intensity and
every hash factor, the cluster key computed on the training path
(`GetGalaxyClusters`) equals the key computed on the test path
(`CreateCentralPixelBenchmark`); both are the same pure function of the
sample and the hash factor. -/
theorem claim_C1_key_paths_agree (c : RGB) (hashFactor : Int)
    (_h : 0 < avIntensity c) :
    trainClusterKey c hashFactor = testClusterKey c hashFactor := by
  unfold trainClusterKey testClusterKey
  ring

/-- Witness for C1 at the concrete sample (120, 120, 120) with hash factor
10: the average intensity is positive and the two paths agree. -/
theorem claim_C1_witness :
    0 < avIntensity (((120 : Int), (120 : Int), (120 : Int)) : RGB) ∧
      trainClusterKey (((120 : Int), (120 : Int), (120 : Int)) : RGB) 10
        = testClusterKey (((120 : Int), (120 : Int), (120 : Int)) : RGB) 10 :=
  ⟨by decide, claim_C1_key_paths_agree _ 10 (by decide)⟩

/-- Claim C4: the key derivation divides by zero exactly when the average
intensity is zero; for samples with nonzero (in particular positive)
average intensity both code paths are well defined, and the division by
zero is reachable at the all-black sample (0, 0, 0). -/
theorem claim_C4_division_by_zero (c : RGB) (hashFactor : Int) :
    ((trainClusterKeyChecked c hashFactor).isSome ↔ avIntensity c ≠ 0) ∧
    ((testClusterKeyChecked c hashFactor).isSome ↔ avIntensity c ≠ 0) ∧
    trainClusterKeyChecked (((0 : Int), (0 : Int), (0 : Int)) : RGB) hashFactor = none ∧
    testClusterKeyChecked (((0 : Int), (0 : Int), (0 : Int)) : RGB) hashFactor = none ∧
    avIntensity (((0 : Int), (0 : Int), (0 : Int)) : RGB) = 0 := by
  refine ⟨?_, ?_, ?_, ?_, ?_⟩
  · unfold trainClusterKeyChecked
    by_cases h : avIntensity c = 0 <;> simp [h]
  · unfold testClusterKeyChecked
    by_cases h : avIntensity c = 0 <;> simp [h]
  · simp [trainClusterKeyChecked, avIntensity]
  · simp [testClusterKeyChecked, avIntensity]
  · simp [avIntensity]

/-- Reading back the key just written by `goInsert`. -/
theorem lookupD_goInsert_self {κ α : Type} [DecidableEq κ]
    (m : GoMap κ α) (k : κ) (v d : α) :
    lookupD (goInsert m k v) k d = v := by
  induction m with
  | nil => simp [goInsert, lookupD]
  | cons p rest ih =>
    by_cases h : p.1 = k
    · simp [goInsert, h, lookupD]
    · simp [goInsert, h, lookupD, ih]

/-- `goInsert` leaves every other key unchanged. -/
theorem lookupD_goInsert_ne {κ α : Type} [DecidableEq κ]
    (m : GoMap κ α) (k k' : κ) (v d : α) (h : k' ≠ k) :
    lookupD (goInsert m k v) k' d = lookupD m k' d := by
  have hkk' : ¬ k = k' := fun hh => h hh.symm
  induction m with
  | nil => simp [goInsert, lookupD, hkk']
  | cons p rest ih =>
    by_cases hp : p.1 = k
    · have hpk' : ¬ p.1 = k' := by rw [hp]; exact hkk'
      simp only [goInsert, if_pos hp, lookupD, if_neg hkk', if_neg hpk']
    · by_cases hp' : p.1 = k'
      · simp only [goInsert, if_neg hp, lookupD, if_pos hp']
      · simp only [goInsert, if_neg hp, lookupD, if_neg hp', ih]

/-- Every entry of `goInsert m k v` is either the new entry or one of `m`. -/
theorem mem_goInsert {κ α : Type} [DecidableEq κ]
    {m : GoMap κ α} {k : κ} {v : α} {p : κ × α} (h : p ∈ goInsert m k v) :
    p = (k, v) ∨ p ∈ m := by
  induction m with
  | nil => simpa [goInsert] using h
  | cons q rest ih =>
    by_cases hq : q.1 = k
    · simp only [goInsert, if_pos hq, List.mem_cons] at h
      rcases h with h | h
      · exact Or.inl h
      · exact Or.inr (List.mem_cons_of_mem _ h)
    · simp only [goInsert, if_neg hq, List.mem_cons] at h
      rcases h with h | h
      · exact Or.inr (h ▸ List.mem_cons_self _ _)
      · rcases ih h with h' | h'
        · exact Or.inl h'
        · exact Or.inr (List.mem_cons_of_mem _ h')

/-- `assignLoop` only overwrites elements, so the result keeps the length
of the accumulator slice. -/
theorem assignLoop_length (parse : String → Option ℚ) (splitrow : List String) :
    ∀ (fuel i : Nat) (floatrow v : List ℚ),
      assignLoop parse splitrow fuel i floatrow = some v → v.length = floatrow.length := by
  intro fuel
  induction fuel with
  | zero =>
    intro i floatrow v h
    simp only [assignLoop] at h
    cases h
    rfl
  | succ fuel ih =>
    intro i floatrow v h
    simp only [assignLoop] at h
    split at h
    case h_1 val hval =>
      split at h
      · have := ih (i + 1) (floatrow.set i val) v h
        simpa using this
      · cases h
    case h_2 => cases h

/-- `AssignClassValues` always returns a slice of length exactly 37
(it starts from `make([]float64, 37)`). -/
theorem AssignClassValues_length (parse : String → Option ℚ)
    (splitrow : List String) (v : List ℚ)
    (h : AssignClassValues parse splitrow = some v) : v.length = 37 := by
  have := assignLoop_length parse splitrow (splitrow.length - 1) 0 (List.replicate 37 0) v h
  simpa using this

/-- Every vector stored by the row loop of `GetTrainingSolutions` has
length 37. -/
theorem trainingRowsLoop_values (parse : String → Option ℚ) :
    ∀ (rows : List (List String)) (acc ts : GoMap String (List ℚ)),
      (∀ p ∈ acc, (p : String × List ℚ).2.length = 37) →
      trainingRowsLoop parse rows acc = some ts →
      ∀ p ∈ ts, p.2.length = 37 := by
  intro rows
  induction rows with
  | nil =>
    intro acc ts hacc h
    simp only [trainingRowsLoop] at h
    cases h
    exact hacc
  | cons row rest ih =>
    intro acc ts hacc h
    simp only [trainingRowsLoop] at h
    cases hv : AssignClassValues parse row.tail with
    | none => rw [hv] at h; cases h
    | some values =>
      rw [hv] at h
      refine ih _ ts ?_ h
      intro p hp
      rcases mem_goInsert hp with hp' | hp'
      · rw [hp']
        exact AssignClassValues_length parse row.tail values hv
      · exact hacc p hp'

/-- A key present in a table whose values all have length 37 reads back a
vector of length 37. -/
theorem lookupD_length_of_mem_keys (m : GoMap String (List ℚ)) (k : String)
    (h37 : ∀ p ∈ m, p.2.length = 37) (hk : k ∈ m.map Prod.fst) :
    (lookupD m k []).length = 37 := by
  induction m with
  | nil => simp at hk
  | cons p rest ih =>
    by_cases hp : p.1 = k
    · simpa [lookupD, hp] using h37 p (List.mem_cons_self _ _)
    · simp only [List.map_cons, List.mem_cons] at hk
      rcases hk with hk | hk
      · exact absurd hk.symm hp
      · simpa [lookupD, hp] using ih (fun q hq => h37 q (List.mem_cons_of_mem _ hq)) hk

/-- Claim C8: for a single-member cluster, `AverageGalaxySolutions` returns
the member's stored vector exactly, and the table is untouched (the source
takes no average in this branch). -/
theorem claim_C8_singleton (g : String) (ts : GoMap String (List ℚ))
    (h : (lookupD ts g []).length = 37) :
    AverageGalaxySolutions [g] ts = .ok (lookupD ts g [], ts) := by
  simp [AverageGalaxySolutions, h]

/-- Witness for C8 at the concrete table `tsMut` and member "A". -/
theorem claim_C8_witness :
    (lookupD tsMut "A" []).length = 37 ∧
      AverageGalaxySolutions ["A"] tsMut = .ok (lookupD tsMut "A" [], tsMut) :=
  ⟨by decide, claim_C8_singleton "A" tsMut (by decide)⟩

/-- Claim C6: whenever the test-path key computation succeeds,
`CreateCentralPixelBenchmark`'s per-identifier prediction is defined (the
miss is not fatal): on a hit it is the cluster's averaged vector, on a
miss the all-zero fallback, whose length is exactly 37. -/
theorem claim_C6_fallback (galaxyClusterSolutions : GoMap Int (List ℚ))
    (c : RGB) (hashFactor key : Int)
    (hk : testClusterKeyChecked c hashFactor = some key) :
    testPredictionFor galaxyClusterSolutions c hashFactor
        = some (if hasKey galaxyClusterSolutions key then
                  lookupD galaxyClusterSolutions key []
                else zeroPrediction) ∧
      zeroPrediction.length = 37 := by
  constructor
  · simp only [testPredictionFor, hk]
    split <;> simp
  · simp [zeroPrediction]

/-- Witness for C6: the empty cluster table misses the key of the sample
(1, 1, 1), so the zero fallback of length 37 is assigned. -/
theorem claim_C6_witness :
    testClusterKeyChecked (((1 : Int), (1 : Int), (1 : Int)) : RGB) 10 = some 111 ∧
      (testPredictionFor [] (((1 : Int), (1 : Int), (1 : Int)) : RGB) 10
          = some (if hasKey ([] : GoMap Int (List ℚ)) 111 then
                    lookupD ([] : GoMap Int (List ℚ)) 111 []
                  else zeroPrediction) ∧
        zeroPrediction.length = 37) :=
  ⟨by decide, claim_C6_fallback [] _ 10 111 (by decide)⟩

/-- Claim C2 failing input (code bug): aggregating the two-member cluster
["A", "B"] overwrites the stored training vector of "A" in place with the
cluster average — the accumulator aliases `trainingSolutions["A"]` — so
the table is NOT left unchanged by `AverageGalaxySolutions`. -/
theorem claim_C2_table_mutated :
    lookupD (aggTableAfter ["A", "B"] tsMut) "A" []
        = [1 / 2, 1 / 2, 0, 0, 0, 0, 0, 0, 0, 0, 0, 0, 0, 0, 0, 0, 0, 0, 0,
           0, 0, 0, 0, 0, 0, 0, 0, 0, 0, 0, 0, 0, 0, 0, 0, 0, 0] ∧
      lookupD tsMut "A" []
        = [1, 0, 0, 0, 0, 0, 0, 0, 0, 0, 0, 0, 0, 0, 0, 0, 0, 0, 0,
           0, 0, 0, 0, 0, 0, 0, 0, 0, 0, 0, 0, 0, 0, 0, 0, 0, 0] ∧
      lookupD (aggTableAfter ["A", "B"] tsMut) "A" [] ≠ lookupD tsMut "A" [] := by
  have h1 : lookupD (aggTableAfter ["A", "B"] tsMut) "A" []
      = [1 / 2, 1 / 2, 0, 0, 0, 0, 0, 0, 0, 0, 0, 0, 0, 0, 0, 0, 0, 0, 0,
         0, 0, 0, 0, 0, 0, 0, 0, 0, 0, 0, 0, 0, 0, 0, 0, 0, 0] := by
    simp [aggTableAfter, AverageGalaxySolutions, accumLoop, accumOne, divideStep,
      lookupD, goInsert, tsMut]
  have h2 : lookupD tsMut "A" []
      = [1, 0, 0, 0, 0, 0, 0, 0, 0, 0, 0, 0, 0, 0, 0, 0, 0, 0, 0,
         0, 0, 0, 0, 0, 0, 0, 0, 0, 0, 0, 0, 0, 0, 0, 0, 0, 0] := by decide
  refine ⟨h1, h2, ?_⟩
  rw [h1, h2]
  intro heq
  have : (1 / 2 : ℚ) = 1 := by injection heq
  norm_num at this

/-- Claim C3 failing input (code bug): for the row `row38` — identifier
"id" followed by exactly 37 fields, all "1" — the stored vector has its
35th element equal to the parsed field, but its 36th (last) element is 0,
not the parsed value 1: the loop bound `len(splitrow)-1` in
`AssignClassValues` drops the final field. -/
theorem claim_C3_last_field_dropped :
    (GetTrainingSolutions unitParse [row38]).map
        (fun ts => ((lookupD ts "id" []).getD 35 0, (lookupD ts "id" []).getD 36 0))
      = some (1, 0) ∧ unitParse "1" = some 1 := by decide

/-- Claim C10: `AssignClassValues` returns a slice of length exactly 37
whenever it returns at all, so for any cluster whose first member was
stored by `GetTrainingSolutions` the fatal "NProbabilities is not 37"
branch of `AverageGalaxySolutions` cannot fire. -/
theorem claim_C10_badLength_unreachable (parse : String → Option ℚ)
    (rows : List (List String)) (ts : GoMap String (List ℚ))
    (galaxyList : List String) (splitrow : List String) (v : List ℚ)
    (hts : GetTrainingSolutions parse rows = some ts)
    (hmem : galaxyList.headD "" ∈ ts.map Prod.fst)
    (hv : AssignClassValues parse splitrow = some v) :
    v.length = 37 ∧ isBadLength (AverageGalaxySolutions galaxyList ts) = false := by
  constructor
  · exact AssignClassValues_length parse splitrow v hv
  · have h37 : ∀ p ∈ ts, (p : String × List ℚ).2.length = 37 :=
      trainingRowsLoop_values parse rows [] ts (by simp) hts
    cases galaxyList with
    | nil => simp [AverageGalaxySolutions, isBadLength]
    | cons g0 rest =>
      have hlen : (lookupD ts g0 []).length = 37 :=
        lookupD_length_of_mem_keys ts g0 h37 (by simpa using hmem)
      simp only [AverageGalaxySolutions, if_pos hlen]
      by_cases hrest : rest = []
      · simp [hrest, isBadLength]
      · simp only [if_neg hrest]
        cases hacc : accumLoop g0 rest ts <;> simp [isBadLength]

/-- Witness for C10 at the concrete row `row38`: the parsed slice has
length 37 and the aggregation of the cluster ["id"] does not reach the
fatal length check. -/
theorem claim_C10_witness :
    (GetTrainingSolutions unitParse [row38] = some tsTrain ∧
      ("id" : String) ∈ tsTrain.map Prod.fst ∧
      AssignClassValues unitParse row38.tail = some (List.replicate 36 1 ++ [0])) ∧
    ((List.replicate 36 (1 : ℚ) ++ [0]).length = 37 ∧
      isBadLength (AverageGalaxySolutions ["id"] tsTrain) = false) :=
  ⟨⟨by decide, by decide, by decide⟩,
    claim_C10_badLength_unreachable unitParse [row38] tsTrain ["id"] row38.tail
      (List.replicate 36 1 ++ [0]) (by decide) (by decide) (by decide)⟩

/-- The output loop appends exactly one 38-field row per test identifier,
in order. -/
theorem writeLoop_spec (fmtFloat : ℚ → String) (preds : GoMap String (List ℚ)) :
    ∀ (entries : List (String × RGB)) (out rows : List (List String)),
      writeLoop fmtFloat preds entries out = some rows →
      rows.map (fun r => r.headD "") = out.map (fun r => r.headD "") ++ entries.map Prod.fst ∧
      rows.length = out.length + entries.length ∧
      ((∀ r ∈ out, r.length = 38) → ∀ r ∈ rows, r.length = 38) := by
  intro entries
  induction entries with
  | nil =>
    intro out rows h
    simp only [writeLoop] at h
    cases h
    simp
  | cons e es ih =>
    intro out rows h
    simp only [writeLoop] at h
    split at h
    · cases h
    case isFalse hv =>
      have hv37 : (lookupD preds e.1 []).length = 37 := not_not.mp hv
      have hline : (e.1 :: (lookupD preds e.1 []).map fmtFloat).length = 38 := by
        simp [hv37]
      simp only [BuildPredictionRow] at h
      rw [if_neg (by simp [hline])] at h
      obtain ⟨h1, h2, h3⟩ := ih (out ++ [e.1 :: (lookupD preds e.1 []).map fmtFloat]) rows h
      refine ⟨?_, ?_, ?_⟩
      · rw [h1]
        simp
      · rw [h2]
        simp
        omega
      · intro hout
        refine h3 ?_
        intro r hr
        rcases List.mem_append.mp hr with hr' | hr'
        · exact hout r hr'
        · rw [List.mem_singleton.mp hr']
          exact hline

/-- Claim C7: whenever `CreateCentralPixelBenchmark` produces its rows,
there is exactly one row per test identifier — none omitted, none
duplicated, so the row count equals the test identifier count — and every
row has exactly 38 fields (the identifier and 37 formatted values). -/
theorem claim_C7_one_row_per_identifier (fmtFloat : ℚ → String)
    (galaxyClusterSolutions : GoMap Int (List ℚ)) (testGalaxyRGB : List (String × RGB))
    (hashFactor : Int) (rows : List (List String))
    (hnd : (testGalaxyRGB.map Prod.fst).Nodup)
    (h : CreateCentralPixelBenchmark fmtFloat galaxyClusterSolutions testGalaxyRGB hashFactor
          = some rows) :
    rows.map (fun r => r.headD "") = testGalaxyRGB.map Prod.fst ∧
      rows.length = testGalaxyRGB.length ∧
      (rows.map (fun r => r.headD "")).Nodup ∧
      ∀ r ∈ rows, r.length = 38 := by
  simp only [CreateCentralPixelBenchmark] at h
  split at h
  case h_1 preds hpreds =>
    split at h
    · obtain ⟨h1, h2, h3⟩ := writeLoop_spec fmtFloat preds testGalaxyRGB [] rows h
      have h1' : rows.map (fun r => r.headD "") = testGalaxyRGB.map Prod.fst := by
        simpa using h1
      refine ⟨h1', by simpa using h2, ?_, h3 (by simp)⟩
      rw [h1']
      exact hnd
    · cases h
  case h_2 => cases h

/-- Witness for C7 at the one-identifier test map `testRGBW`: the single
output row is the identifier "t" followed by 37 formatted zeros. -/
theorem claim_C7_witness :
    ((testRGBW.map Prod.fst).Nodup ∧
      CreateCentralPixelBenchmark constFmt [] testRGBW 10
        = some ["t" :: List.replicate 37 "0"]) ∧
    ((["t" :: List.replicate 37 "0"].map (fun r => r.headD "") = testRGBW.map Prod.fst) ∧
      ["t" :: List.replicate 37 "0"].length = testRGBW.length ∧
      ((["t" :: List.replicate 37 "0"]).map (fun r => r.headD "")).Nodup ∧
      ∀ r ∈ ["t" :: List.replicate 37 "0"], r.length = 38) :=
  ⟨⟨by decide, by decide⟩,
    claim_C7_one_row_per_identifier constFmt [] testRGBW 10
      ["t" :: List.replicate 37 "0"] (by decide) (by decide)⟩

/-- Element access distributes over the elementwise addition used by the
accumulation loop. -/
theorem getD_zipWith_add :
    ∀ (a b : List ℚ) (j : Nat), j < a.length → j < b.length →
      (List.zipWith (· + ·) a b).getD j 0 = a.getD j 0 + b.getD j 0 := by
  intro a
  induction a with
  | nil => intro b j hj _; simp at hj
  | cons x xs ih =>
    intro b j hja hjb
    cases b with
    | nil => simp at hjb
    | cons y ys =>
      cases j with
      | zero => simp
      | succ j =>
        simp only [List.zipWith_cons_cons, List.getD_cons_succ]
        exact ih ys j (by simpa using hja) (by simpa using hjb)

/-- Element access distributes over the division loop. -/
theorem getD_map_div :
    ∀ (l : List ℚ) (c : ℚ) (j : Nat), j < l.length →
      (l.map (fun x => x / c)).getD j 0 = l.getD j 0 / c := by
  intro l
  induction l with
  | nil => intro c j hj; simp at hj
  | cons x xs ih =>
    intro c j hj
    cases j with
    | zero => simp
    | succ j =>
      simp only [List.map_cons, List.getD_cons_succ]
      exact ih c j (by simpa using hj)

/-- The accumulation loop of `AverageGalaxySolutions` succeeds when every
member distinct from the first holds a 37-vector, and it turns the table
entry of the first member into the elementwise sum over the member list,
leaving every other key unchanged. -/
theorem accumLoop_sum (g0 : String) :
    ∀ (rest : List String) (ts : GoMap String (List ℚ)),
      (lookupD ts g0 []).length = 37 →
      (∀ g ∈ rest, g ≠ g0 ∧ (lookupD ts g []).length = 37) →
      ∃ ts1, accumLoop g0 rest ts = some ts1 ∧
        (lookupD ts1 g0 []).length = 37 ∧
        (∀ j, j < 37 → (lookupD ts1 g0 []).getD j 0
            = (lookupD ts g0 []).getD j 0
              + (rest.map (fun g => (lookupD ts g []).getD j 0)).sum) ∧
        ∀ g, g ≠ g0 → lookupD ts1 g [] = lookupD ts g [] := by
  intro rest
  induction rest with
  | nil =>
    intro ts h0 _
    exact ⟨ts, rfl, h0, fun j _ => by simp, fun g _ => rfl⟩
  | cons gi rs ih =>
    intro ts h0 hr
    obtain ⟨hgi0, hgi37⟩ := hr gi (List.mem_cons_self _ _)
    have hcond : ¬ (lookupD ts gi []).length < 37 := by rw [hgi37]; exact lt_irrefl _
    have hw : (List.zipWith (· + ·) (lookupD ts g0 []) (lookupD ts gi [])).length = 37 := by
      rw [List.length_zipWith, h0, hgi37]
      exact min_self 37
    set w := List.zipWith (· + ·) (lookupD ts g0 []) (lookupD ts gi []) with hwdef
    have hstep : accumOne g0 ts gi = some (goInsert ts g0 w) := by
      simp only [accumOne, if_neg hcond]
    have h0' : (lookupD (goInsert ts g0 w) g0 []).length = 37 := by
      rw [lookupD_goInsert_self]; exact hw
    have hpres' : ∀ g, g ≠ g0 → lookupD (goInsert ts g0 w) g [] = lookupD ts g [] :=
      fun g hg => lookupD_goInsert_ne ts g0 g w [] hg
    have hr' : ∀ g ∈ rs, g ≠ g0 ∧ (lookupD (goInsert ts g0 w) g []).length = 37 := by
      intro g hg
      obtain ⟨hne, h37⟩ := hr g (List.mem_cons_of_mem _ hg)
      exact ⟨hne, by rw [hpres' g hne]; exact h37⟩
    obtain ⟨ts1, hloop, hlen1, hsum, hpres⟩ := ih (goInsert ts g0 w) h0' hr'
    refine ⟨ts1, ?_, hlen1, ?_, ?_⟩
    · simp only [accumLoop, hstep, hloop]
    · intro j hj
      have hsum' := hsum j hj
      have hmap : rs.map (fun g => (lookupD (goInsert ts g0 w) g []).getD j 0)
          = rs.map (fun g => (lookupD ts g []).getD j 0) := by
        refine List.map_congr_left ?_
        intro g hg
        rw [hpres' g (hr' g hg).1]
      rw [hmap] at hsum'
      rw [hsum', lookupD_goInsert_self]
      rw [hwdef, getD_zipWith_add _ _ j (by rw [h0]; exact hj) (by rw [hgi37]; exact hj)]
      simp [add_assoc]
    · intro g hg
      rw [hpres g hg, hpres' g hg]

/-- Claim C5: for a cluster `g0 :: rest` whose members all hold stored
37-vectors (members distinct, as produced by `GetGalaxyClusters`),
`AverageGalaxySolutions` succeeds and the j-th element of the returned
vector is the elementwise arithmetic mean over the member list — the sum
of the members' j-th elements divided by the member count. -/
theorem claim_C5_cluster_mean (ts : GoMap String (List ℚ)) (g0 : String)
    (rest : List String) (j : Nat)
    (h0 : (lookupD ts g0 []).length = 37)
    (hr : ∀ g ∈ rest, (lookupD ts g []).length = 37)
    (hg0 : g0 ∉ rest) (hj : j < 37) :
    (AverageGalaxySolutions (g0 :: rest) ts).isOk = true ∧
      (aggVector (g0 :: rest) ts).getD j 0
        = ((g0 :: rest).map (fun g => (lookupD ts g []).getD j 0)).sum
            / (((g0 :: rest).length : Nat) : ℚ) := by
  by_cases hrest : rest = []
  · subst hrest
    refine ⟨by simp [AverageGalaxySolutions, h0, Except.isOk, Except.toBool], ?_⟩
    simp [aggVector, AverageGalaxySolutions, h0]
  · have hr' : ∀ g ∈ rest, g ≠ g0 ∧ (lookupD ts g []).length = 37 :=
      fun g hg => ⟨fun he => hg0 (he ▸ hg), hr g hg⟩
    obtain ⟨ts1, hloop, hlen1, hsum, _⟩ := accumLoop_sum g0 rest ts h0 hr'
    constructor
    · simp only [AverageGalaxySolutions, if_pos h0, if_neg hrest, hloop, Except.isOk,
        Except.toBool]
    · simp only [aggVector, AverageGalaxySolutions, if_pos h0, if_neg hrest, hloop]
      have hdiv : lookupD (divideStep g0 (rest.length + 1) ts1) g0 []
          = (lookupD ts1 g0 []).map (fun x => x / ((rest.length + 1 : Nat) : ℚ)) := by
        simp [divideStep, lookupD_goInsert_self]
      rw [hdiv, getD_map_div _ _ j (by rw [hlen1]; exact hj), hsum j hj]
      simp

/-- Witness for C5 at the two-member cluster ["A", "B"] over `tsMut` and
position 0: the aggregation succeeds and position 0 of the result is the
mean of the members' position-0 values. -/
theorem claim_C5_witness :
    (AverageGalaxySolutions ("A" :: ["B"]) tsMut).isOk = true ∧
      (aggVector ("A" :: ["B"]) tsMut).getD 0 0
        = (("A" :: ["B"]).map (fun g => (lookupD tsMut g []).getD 0 0)).sum
            / ((("A" :: ["B"]).length : Nat) : ℚ) :=
  claim_C5_cluster_mean tsMut "A" ["B"] 0 (by decide) (by decide) (by decide) (by decide)

/-- Inserting a fresh identifier puts it into exactly one cluster entry. -/
theorem countP_addToCluster_self :
    ∀ (cl : GoMap Int (List String)) (k : Int) (galaxyId : String),
      (∀ p ∈ cl, galaxyId ∉ p.2) →
      (addToCluster cl k galaxyId).countP (fun p => decide (galaxyId ∈ p.2)) = 1 := by
  intro cl
  induction cl with
  | nil =>
    intro k galaxyId _
    simp [addToCluster, List.countP_cons]
  | cons p rest ih =>
    intro k galaxyId hfresh
    by_cases hk : p.1 = k
    · have h0 : rest.countP (fun q => decide (galaxyId ∈ q.2)) = 0 := by
        rw [List.countP_eq_zero]
        intro q hq
        simp [hfresh q (List.mem_cons_of_mem _ hq)]
      simp only [addToCluster, if_pos hk]
      simp [List.countP_cons, h0]
    · have hhead : decide (galaxyId ∈ p.2) = false := by
        simp [hfresh p (List.mem_cons_self _ _)]
      simp only [addToCluster, if_neg hk]
      simp [List.countP_cons, hhead,
        ih k galaxyId (fun q hq => hfresh q (List.mem_cons_of_mem _ hq))]

/-- Inserting one identifier does not change in how many clusters any
other identifier occurs. -/
theorem countP_addToCluster_ne :
    ∀ (cl : GoMap Int (List String)) (k : Int) (galaxyId other : String),
      other ≠ galaxyId →
      (addToCluster cl k galaxyId).countP (fun p => decide (other ∈ p.2))
        = cl.countP (fun p => decide (other ∈ p.2)) := by
  intro cl
  induction cl with
  | nil =>
    intro k galaxyId other hne
    simp [addToCluster, List.countP_cons, hne]
  | cons p rest ih =>
    intro k galaxyId other hne
    by_cases hk : p.1 = k
    · simp only [addToCluster, if_pos hk]
      simp [List.countP_cons, hne]
    · simp only [addToCluster, if_neg hk]
      simp [List.countP_cons, ih k galaxyId other hne]

/-- Identifiers distinct from the inserted one stay absent from all member
lists. -/
theorem fresh_addToCluster :
    ∀ (cl : GoMap Int (List String)) (k : Int) (galaxyId other : String),
      other ≠ galaxyId → (∀ p ∈ cl, other ∉ p.2) →
      ∀ p ∈ addToCluster cl k galaxyId, other ∉ p.2 := by
  intro cl
  induction cl with
  | nil =>
    intro k galaxyId other hne _ p hp
    simp only [addToCluster, List.mem_singleton] at hp
    rw [hp]
    simp [hne]
  | cons q rest ih =>
    intro k galaxyId other hne hfresh p hp
    by_cases hk : q.1 = k
    · simp only [addToCluster, if_pos hk, List.mem_cons] at hp
      rcases hp with hp | hp
      · rw [hp]
        simp [hne, hfresh q (List.mem_cons_self _ _)]
      · exact hfresh p (List.mem_cons_of_mem _ hp)
    · simp only [addToCluster, if_neg hk, List.mem_cons] at hp
      rcases hp with hp | hp
      · rw [hp]
        exact hfresh q (List.mem_cons_self _ _)
      · exact ih k galaxyId other hne
          (fun r hr => hfresh r (List.mem_cons_of_mem _ hr)) p hp

/-- Cluster member lists stay non-empty across an insertion. -/
theorem nonempty_addToCluster :
    ∀ (cl : GoMap Int (List String)) (k : Int) (galaxyId : String),
      (∀ p ∈ cl, p.2 ≠ []) →
      ∀ p ∈ addToCluster cl k galaxyId, p.2 ≠ [] := by
  intro cl
  induction cl with
  | nil =>
    intro k galaxyId _ p hp
    simp only [addToCluster, List.mem_singleton] at hp
    rw [hp]
    simp
  | cons q rest ih =>
    intro k galaxyId hne p hp
    by_cases hk : q.1 = k
    · simp only [addToCluster, if_pos hk, List.mem_cons] at hp
      rcases hp with hp | hp
      · rw [hp]
        simp
      · exact hne p (List.mem_cons_of_mem _ hp)
    · simp only [addToCluster, if_neg hk, List.mem_cons] at hp
      rcases hp with hp | hp
      · rw [hp]
        exact hne q (List.mem_cons_self _ _)
      · exact ih k galaxyId (fun r hr => hne r (List.mem_cons_of_mem _ hr)) p hp

/-- Invariant of the clustering loop: processed identifiers land in
exactly one cluster, unprocessed identifiers' counts are untouched,
freshness is preserved, and member lists stay non-empty. -/
theorem clustersLoop_partition (hashFactor : Int) :
    ∀ (entries : List (String × RGB)) (cl cl1 : GoMap Int (List String)),
      (entries.map Prod.fst).Nodup →
      (∀ e ∈ entries, ∀ p ∈ cl, e.1 ∉ p.2) →
      clustersLoop hashFactor entries cl = some cl1 →
      (∀ galaxyId ∈ entries.map Prod.fst,
          cl1.countP (fun p => decide (galaxyId ∈ p.2)) = 1) ∧
      (∀ other, other ∉ entries.map Prod.fst →
          cl1.countP (fun p => decide (other ∈ p.2))
            = cl.countP (fun p => decide (other ∈ p.2))) ∧
      (∀ other, (∀ p ∈ cl, other ∉ p.2) → other ∉ entries.map Prod.fst →
          ∀ p ∈ cl1, other ∉ p.2) ∧
      ((∀ p ∈ cl, p.2 ≠ []) → ∀ p ∈ cl1, p.2 ≠ []) := by
  intro entries
  induction entries with
  | nil =>
    intro cl cl1 _ _ h
    simp only [clustersLoop] at h
    cases h
    exact ⟨by simp, fun _ _ => rfl, fun _ hf _ => hf, fun hne => hne⟩
  | cons e es ih =>
    intro cl cl1 hnd hfresh h
    simp only [clustersLoop] at h
    cases hkey : trainClusterKeyChecked e.2 hashFactor with
    | none => rw [hkey] at h; cases h
    | some key =>
      rw [hkey] at h
      have hnd' : (es.map Prod.fst).Nodup := (List.nodup_cons.mp (by simpa using hnd)).2
      have hnotin : e.1 ∉ es.map Prod.fst := (List.nodup_cons.mp (by simpa using hnd)).1
      have hfresh' : ∀ e' ∈ es, ∀ p ∈ addToCluster cl key e.1, e'.1 ∉ p.2 := by
        intro e' he' p hp
        have hne : e'.1 ≠ e.1 := by
          intro heq
          exact hnotin (heq ▸ List.mem_map_of_mem Prod.fst he')
        exact fresh_addToCluster cl key e.1 e'.1 hne
          (fun q hq => hfresh e' (List.mem_cons_of_mem _ he') q hq) p hp
      obtain ⟨hA, hB, hC, hD⟩ := ih (addToCluster cl key e.1) cl1 hnd' hfresh' h
      refine ⟨?_, ?_, ?_, ?_⟩
      · intro galaxyId hid
        simp only [List.map_cons, List.mem_cons] at hid
        rcases hid with hid | hid
        · rw [hid, hB e.1 hnotin,
            countP_addToCluster_self cl key e.1 (hfresh e (List.mem_cons_self _ _))]
        · exact hA galaxyId hid
      · intro other hother
        simp only [List.map_cons, List.mem_cons] at hother
        push_neg at hother
        rw [hB other hother.2, countP_addToCluster_ne cl key e.1 other hother.1]
      · intro other hf hother
        simp only [List.map_cons, List.mem_cons] at hother
        push_neg at hother
        exact hC other (fresh_addToCluster cl key e.1 other hother.1 hf) hother.2
      · intro hne
        exact hD (nonempty_addToCluster cl key e.1 hne)

/-- Claim C9: when `GetGalaxyClusters` succeeds on a training map with
distinct identifiers, the clusters partition the identifiers: each
training identifier occurs in the member list of exactly one cluster, and
every cluster present has a non-empty member list. -/
theorem claim_C9_partition (trainingGalaxyRGB : List (String × RGB)) (hashFactor : Int)
    (clusters : GoMap Int (List String)) (galaxyId : String)
    (hnd : (trainingGalaxyRGB.map Prod.fst).Nodup)
    (h : GetGalaxyClusters trainingGalaxyRGB hashFactor = some clusters)
    (hid : galaxyId ∈ trainingGalaxyRGB.map Prod.fst) :
    clusters.countP (fun p => decide (galaxyId ∈ p.2)) = 1 ∧
      clusters.all (fun p => !p.2.isEmpty) = true := by
  simp only [GetGalaxyClusters] at h
  split at h
  case h_2 => cases h
  case h_1 cl' hloop =>
    by_cases hlen : cl'.length < 1
    · rw [if_pos hlen] at h
      cases h
    · rw [if_neg hlen] at h
      obtain rfl : cl' = clusters := by injection h
      obtain ⟨hA, _, _, hD⟩ :=
        clustersLoop_partition hashFactor trainingGalaxyRGB [] cl' hnd (by simp) hloop
      refine ⟨hA galaxyId hid, ?_⟩
      rw [List.all_eq_true]
      intro p hp
      have := hD (by simp) p hp
      simpa using this

/-- Witness for C9: the two concrete training samples of `trainRGBW` both
hash to key 111 and form one cluster containing each identifier once. -/
theorem claim_C9_witness :
    ((trainRGBW.map Prod.fst).Nodup ∧
      GetGalaxyClusters trainRGBW 10 = some [(111, ["A", "B"])] ∧
      "A" ∈ trainRGBW.map Prod.fst) ∧
    (([((111 : Int), ["A", "B"])] : GoMap Int (List String)).countP
        (fun p => decide ("A" ∈ p.2)) = 1 ∧
      ([((111 : Int), ["A", "B"])] : GoMap Int (List String)).all
        (fun p => !p.2.isEmpty) = true) :=
  ⟨⟨by decide, by decide, by decide⟩,
    claim_C9_partition trainRGBW 10 [(111, ["A", "B"])] "A" (by decide) (by decide) (by decide)⟩
